import Mathlib

/-!
Shallow embedding of the Soroban flight-delay insurance contract
(`src/src/lib.rs`) and verification of its specification claims.

Storage is modelled as a record of optional slots (instance storage keys)
plus association lists for the per-id policy records and the per-flight
index.  A panicking contract call aborts the whole transaction on the
Soroban host, so every public operation is embedded as a function
returning `Except ContractError …`: an `error` result leaves the caller's
state unchanged.  Token movements are recorded as `Transfer` events;
`i128` quantities are embedded as `Int` (the contract performs no
wrapping arithmetic) and Rust's truncating `/` as `Int.tdiv`.
Authorization (`require_auth`) is modelled by a predicate
`auth : Address → Bool` giving the principals that authorized the call.
-/

namespace FlightInsurance

abbrev Address := Nat

inductive PolicyStatus where
  | Unresolved
  | OnTime
  | Delayed
  | Cancelled
  deriving DecidableEq, Repr

structure Policy where
  id : Nat
  customer : Address
  flight_id : String
  flight_date : Nat
  premium_amount : Int
  coverage_amount : Int
  status : PolicyStatus
  payout_amount : Int
  deriving DecidableEq, Repr

inductive FlightResolution where
  | OnTime
  | Cancelled
  | Delayed (minutes : Nat)
  deriving DecidableEq, Repr

/-- One `token_client.transfer(&sender, &recipient, &amount)` call. -/
structure Transfer where
  sender : Address
  recipient : Address
  amount : Int
  deriving DecidableEq, Repr

/-- Panic messages of the contract, as an error type (a panic aborts the
whole transaction on the host). -/
inductive ContractError where
  | AlreadyInitialized
  | Unauthorized
  | InvalidAmount
  | InvalidSchedule
  | InsufficientLiquidity
  | UsdcTokenNotConfigured
  | AdminNotConfigured
  | NoPoliciesForFlight
  | PolicyNotFound
  | InsufficientPoolForPayout
  | InsufficientCoverage
  deriving DecidableEq, Repr

/-- Association-list lookup (storage `get` on a parameterised key). -/
def getEntry {α β : Type} [DecidableEq α] (l : List (α × β)) (k : α) : Option β :=
  match l with
  | [] => none
  | (k', v) :: rest => if k' = k then some v else getEntry rest k

/-- Association-list update (storage `set` on a parameterised key). -/
def setEntry {α β : Type} [DecidableEq α] (l : List (α × β)) (k : α) (v : β) :
    List (α × β) :=
  match l with
  | [] => [(k, v)]
  | (k', v') :: rest => if k' = k then (k, v) :: rest else (k', v') :: setEntry rest k v

/-- Association-list deletion (storage `remove` on a parameterised key). -/
def removeEntry {α β : Type} [DecidableEq α] (l : List (α × β)) (k : α) :
    List (α × β) :=
  match l with
  | [] => []
  | (k', v') :: rest => if k' = k then removeEntry rest k else (k', v') :: removeEntry rest k

/-- The contract's instance storage: `DataKey::Admin`, `UsdcToken`,
`LiquidityPool`, `PolicyCounter`, the `Policy(id)` records and the
`ActivePolicies` and `FlightToPolicies(flight_id)` indices. -/
structure ContractState where
  admin : Option Address
  usdcToken : Option Address
  liquidityPool : Option Int
  policyCounter : Option Nat
  policies : List (Nat × Policy)
  activePolicies : Option (List Nat)
  flightToPolicies : List (String × List Nat)
  deriving DecidableEq, Repr

/-- The storage before any call: no key is set. -/
def initialState : ContractState :=
  { admin := none, usdcToken := none, liquidityPool := none, policyCounter := none,
    policies := [], activePolicies := none, flightToPolicies := [] }

/-- Embeds `initialize` (lib.rs lines 59-73). -/
def initializeContract (s : ContractState) (admin usdc_token : Address)
    (initial_capital : Int) : Except ContractError ContractState :=
  if s.admin.isSome then
    .error .AlreadyInitialized
  else
    .ok { s with admin := some admin, usdcToken := some usdc_token,
                 liquidityPool := some initial_capital, policyCounter := some 0,
                 activePolicies := some [] }

/-- Embeds `create_policy` (lib.rs lines 76-133); `self` is
`env.current_contract_address()` and `now` is `env.ledger().timestamp()`. -/
def create_policy (s : ContractState) (self : Address) (now : Nat)
    (auth : Address → Bool) (customer : Address) (flight_id : String)
    (flight_date : Nat) (premium_amount coverage_amount : Int) :
    Except ContractError (Nat × ContractState × List Transfer) :=
  if ¬ auth customer then .error .Unauthorized
  else if premium_amount ≤ 0 ∨ coverage_amount ≤ 0 then .error .InvalidAmount
  else if flight_date ≤ now then .error .InvalidSchedule
  else
    let current_pool : Int := (s.liquidityPool).getD 0
    if current_pool < coverage_amount then .error .InsufficientLiquidity
    else match s.usdcToken with
    | none => .error .UsdcTokenNotConfigured
    | some _usdc =>
      let premium_in : Transfer := ⟨customer, self, premium_amount⟩
      let new_pool := current_pool + premium_amount
      let counter := (s.policyCounter).getD 0 + 1
      let new_policy : Policy :=
        { id := counter, customer := customer, flight_id := flight_id,
          flight_date := flight_date, premium_amount := premium_amount,
          coverage_amount := coverage_amount, status := .Unresolved,
          payout_amount := 0 }
      let active := (s.activePolicies).getD [] ++ [counter]
      let flight_policies := (getEntry s.flightToPolicies flight_id).getD [] ++ [counter]
      .ok (counter,
        { s with liquidityPool := some new_pool,
                 policies := setEntry s.policies counter new_policy,
                 policyCounter := some counter,
                 activePolicies := some active,
                 flightToPolicies := setEntry s.flightToPolicies flight_id flight_policies },
        [premium_in])

/-- The `match resolution` block of `resolve_flight` (lib.rs lines 155-174):
final status together with the computed payout for one policy. -/
def resolutionOutcome (resolution : FlightResolution) (policy : Policy) :
    PolicyStatus × Int :=
  match resolution with
  | .Cancelled => (.Cancelled, policy.premium_amount)
  | .OnTime => (.OnTime, 0)
  | .Delayed delay_in_minutes =>
    (.Delayed,
      if 60 ≤ delay_in_minutes ∧ delay_in_minutes ≤ 180 then
        Int.tdiv policy.coverage_amount 2
      else if 180 < delay_in_minutes then policy.coverage_amount
      else 0)

/-- The mutable locals of `resolve_flight`'s loop: the policy records, the
`current_pool` local, the `ActivePolicies` slot and the emitted transfers. -/
structure ResolveAcc where
  policies : List (Nat × Policy)
  pool : Int
  active : Option (List Nat)
  transfers : List Transfer
  deriving DecidableEq, Repr

/-- The `ActivePolicies` maintenance at the end of each loop iteration
(lib.rs lines 188-192): `position` of the id, then `remove`. -/
def removeActive (active : Option (List Nat)) (policy_id : Nat) : Option (List Nat) :=
  let act := active.getD []
  match act.findIdx? (fun x => x == policy_id) with
  | some pos => some (act.eraseIdx pos)
  | none => active

/-- One iteration of `resolve_flight`'s loop (lib.rs lines 148-193). -/
def resolveStep (self : Address) (resolution : FlightResolution)
    (acc : ResolveAcc) (policy_id : Nat) : Except ContractError ResolveAcc :=
  match getEntry acc.policies policy_id with
  | none => .error .PolicyNotFound
  | some policy =>
    if policy.status ≠ PolicyStatus.Unresolved then .ok acc
    else
      let o := resolutionOutcome resolution policy
      if 0 < o.2 then
        if acc.pool < o.2 then .error .InsufficientPoolForPayout
        else
          let policy' : Policy := { policy with status := o.1, payout_amount := o.2 }
          .ok { policies := setEntry acc.policies policy_id policy',
                pool := acc.pool - o.2,
                active := removeActive acc.active policy_id,
                transfers := acc.transfers ++ [⟨self, policy.customer, o.2⟩] }
      else
        let policy' : Policy := { policy with status := o.1 }
        .ok { policies := setEntry acc.policies policy_id policy',
              pool := acc.pool,
              active := removeActive acc.active policy_id,
              transfers := acc.transfers }

/-- The `for policy_id in policy_ids.iter()` loop of `resolve_flight`. -/
def resolveLoop (self : Address) (resolution : FlightResolution)
    (acc : ResolveAcc) : List Nat → Except ContractError ResolveAcc
  | [] => .ok acc
  | policy_id :: rest =>
    match resolveStep self resolution acc policy_id with
    | .error e => .error e
    | .ok acc' => resolveLoop self resolution acc' rest

/-- Embeds `resolve_flight` (lib.rs lines 136-198). -/
def resolve_flight (s : ContractState) (self : Address) (auth : Address → Bool)
    (flight_id : String) (resolution : FlightResolution) :
    Except ContractError (ContractState × List Transfer) :=
  match s.admin with
  | none => .error .AdminNotConfigured
  | some admin =>
    if ¬ auth admin then .error .Unauthorized
    else match getEntry s.flightToPolicies flight_id with
    | none => .error .NoPoliciesForFlight
    | some policy_ids =>
      match s.usdcToken with
      | none => .error .UsdcTokenNotConfigured
      | some _usdc =>
        let start : ResolveAcc :=
          { policies := s.policies, pool := (s.liquidityPool).getD 0,
            active := s.activePolicies, transfers := [] }
        match resolveLoop self resolution start policy_ids with
        | .error e => .error e
        | .ok acc =>
          .ok ({ s with policies := acc.policies,
                        liquidityPool := some acc.pool,
                        activePolicies := acc.active,
                        flightToPolicies := removeEntry s.flightToPolicies flight_id },
               acc.transfers)

/-- Embeds `deposit_to_pool` (lib.rs lines 201-216). -/
def deposit_to_pool (s : ContractState) (self : Address) (auth : Address → Bool)
    (amount : Int) : Except ContractError (ContractState × List Transfer) :=
  match s.admin with
  | none => .error .AdminNotConfigured
  | some admin =>
    if ¬ auth admin then .error .Unauthorized
    else if amount ≤ 0 then .error .InvalidAmount
    else match s.usdcToken with
    | none => .error .UsdcTokenNotConfigured
    | some _usdc =>
      let current_pool : Int := (s.liquidityPool).getD 0
      .ok ({ s with liquidityPool := some (current_pool + amount) },
           [⟨admin, self, amount⟩])

/-- The `total_exposure` summation loop of `withdraw_from_pool`
(lib.rs lines 230-236). -/
def activeExposure (policies : List (Nat × Policy)) (ids : List Nat) : Int :=
  ids.foldl
    (fun total id =>
      match getEntry policies id with
      | some policy => total + policy.coverage_amount
      | none => total) 0

/-- Embeds `withdraw_from_pool` (lib.rs lines 219-247). -/
def withdraw_from_pool (s : ContractState) (self : Address) (auth : Address → Bool)
    (amount : Int) : Except ContractError (ContractState × List Transfer) :=
  match s.admin with
  | none => .error .AdminNotConfigured
  | some admin =>
    if ¬ auth admin then .error .Unauthorized
    else if amount ≤ 0 then .error .InvalidAmount
    else
      let current_pool : Int := (s.liquidityPool).getD 0
      let after_withdrawal := current_pool - amount
      let active := (s.activePolicies).getD []
      if after_withdrawal < activeExposure s.policies active then
        .error .InsufficientCoverage
      else match s.usdcToken with
      | none => .error .UsdcTokenNotConfigured
      | some _usdc =>
        .ok ({ s with liquidityPool := some after_withdrawal },
             [⟨self, admin, amount⟩])

/-- Embeds `get_policy` (lib.rs lines 252-254). -/
def get_policy (s : ContractState) (policy_id : Nat) : Except ContractError Policy :=
  match getEntry s.policies policy_id with
  | none => .error .PolicyNotFound
  | some policy => .ok policy

/-- Embeds `get_liquidity_pool` (lib.rs lines 257-259). -/
def get_liquidity_pool (s : ContractState) : Int :=
  (s.liquidityPool).getD 0

/-- Embeds `get_active_policies` (lib.rs lines 262-264). -/
def get_active_policies (s : ContractState) : List Nat :=
  (s.activePolicies).getD []

/-- Embeds `get_policies_for_flight` (lib.rs lines 267-269). -/
def get_policies_for_flight (s : ContractState) (flight_id : String) : List Nat :=
  (getEntry s.flightToPolicies flight_id).getD []

/-- Embeds `get_total_policies` (lib.rs lines 272-274). -/
def get_total_policies (s : ContractState) : Nat :=
  (s.policyCounter).getD 0

/-- Embeds `is_admin` (lib.rs lines 277-283). -/
def is_admin (s : ContractState) (address : Address) : Bool :=
  match s.admin with
  | some admin => admin == address
  | none => false

/-- A public contract invocation with its environment data. -/
inductive Op where
  | opInit (admin usdc_token : Address) (initial_capital : Int)
  | opCreate (self : Address) (now : Nat) (auth : Address → Bool)
      (customer : Address) (flight_id : String) (flight_date : Nat)
      (premium_amount coverage_amount : Int)
  | opResolve (self : Address) (auth : Address → Bool) (flight_id : String)
      (resolution : FlightResolution)
  | opDeposit (self : Address) (auth : Address → Bool) (amount : Int)
  | opWithdraw (self : Address) (auth : Address → Bool) (amount : Int)

/-- Applies one invocation to the storage; a panicking (erroring) call
leaves the storage unchanged (transaction rollback). -/
def applyOp (s : ContractState) (op : Op) : ContractState :=
  match op with
  | .opInit a u c =>
    match initializeContract s a u c with
    | .ok s' => s'
    | .error _ => s
  | .opCreate self now auth customer fid fdate prem cov =>
    match create_policy s self now auth customer fid fdate prem cov with
    | .ok r => r.2.1
    | .error _ => s
  | .opResolve self auth fid res =>
    match resolve_flight s self auth fid res with
    | .ok r => r.1
    | .error _ => s
  | .opDeposit self auth amount =>
    match deposit_to_pool s self auth amount with
    | .ok r => r.1
    | .error _ => s
  | .opWithdraw self auth amount =>
    match withdraw_from_pool s self auth amount with
    | .ok r => r.1
    | .error _ => s

/-- States reachable from the empty storage by public invocations. -/
inductive Reachable : ContractState → Prop where
  | init : Reachable initialState
  | step (s : ContractState) (op : Op) : Reachable s → Reachable (applyOp s op)

/-- Total coverage of the policies whose stored status is `Unresolved`
(the spec's "exposure"). -/
def unresolvedExposure (s : ContractState) : Int :=
  s.policies.foldl
    (fun total kv =>
      if kv.2.status = PolicyStatus.Unresolved then total + kv.2.coverage_amount
      else total) 0

/-- The storage invariant maintained by every public operation: a
configured token implies a configured admin, an unconfigured admin means
no policy was ever stored, and every stored policy has an id between 1 and
the counter and zero payout while unresolved. -/
def StateInv (s : ContractState) : Prop :=
  ((s.usdcToken).isSome = true → (s.admin).isSome = true) ∧
  (s.admin = none → s.policies = []) ∧
  ∀ pid p, getEntry s.policies pid = some p →
    1 ≤ pid ∧ pid ≤ get_total_policies s ∧
    (p.status = PolicyStatus.Unresolved → p.payout_amount = 0)

/-! ### Concrete sample data used in witnesses and counterexamples -/

/-- A concrete unresolved policy. -/
def samplePolicy : Policy :=
  { id := 1, customer := 2, flight_id := "F1", flight_date := 10,
    premium_amount := 7, coverage_amount := 5,
    status := PolicyStatus.Unresolved, payout_amount := 0 }

/-- The same policy already resolved as on time. -/
def sampleResolved : Policy :=
  { samplePolicy with status := PolicyStatus.OnTime }

/-- A concrete loop accumulator holding one already-resolved policy. -/
def sampleAcc : ResolveAcc :=
  { policies := [(1, sampleResolved)], pool := 100, active := some [1],
    transfers := [] }

/-- Storage after a first `initialize` with admin `0`, token `1` and
initial capital `100`. -/
def sampleInit : ContractState := applyOp initialState (.opInit 0 1 100)

/-- Storage after additionally creating policy 1 for customer `2` on flight
`"F1"` (premium 7, coverage 50); the pool is then 107. -/
def sampleCreated : ContractState :=
  applyOp sampleInit (.opCreate 9 0 (fun _ => true) 2 ("F1") 10 7 50)

/-- The policy record stored by the creation leading to `sampleCreated`. -/
def sampleCreatedPolicy : Policy :=
  { id := 1, customer := 2, flight_id := "F1", flight_date := 10,
    premium_amount := 7, coverage_amount := 50,
    status := PolicyStatus.Unresolved, payout_amount := 0 }

/-- Storage after additionally creating policy 2 for customer `3` on flight
`"F2"` with coverage 107: the creation-time check (`107 ≤ pool = 107`)
passes, yet afterwards the pool (114) is below the summed unresolved
coverage (157). -/
def overCommitted : ContractState :=
  applyOp sampleCreated (.opCreate 9 0 (fun _ => true) 3 ("F2") 10 7 107)

/-- Storage after resolving flight `"F1"` of `sampleCreated` as on time. -/
def afterResolve : ContractState :=
  applyOp sampleCreated (.opResolve 9 (fun _ => true) "F1" FlightResolution.OnTime)

/-- Storage after withdrawing 30 from `sampleCreated`. -/
def afterWithdraw : ContractState :=
  applyOp sampleCreated (.opWithdraw 9 (fun _ => true) 30)

/-! ### Association-list lemmas -/

theorem getEntry_setEntry_self {α β : Type} [DecidableEq α] (l : List (α × β))
    (k : α) (v : β) : getEntry (setEntry l k v) k = some v := by
  induction l with
  | nil => simp [getEntry, setEntry]
  | cons hd tl ih =>
    obtain ⟨k', v'⟩ := hd
    by_cases h : k' = k
    · simp [getEntry, setEntry, h]
    · simp [getEntry, setEntry, h, ih]

theorem getEntry_setEntry_ne {α β : Type} [DecidableEq α] (l : List (α × β))
    (k q : α) (v : β) (hne : q ≠ k) :
    getEntry (setEntry l k v) q = getEntry l q := by
  have hkq : ¬ k = q := fun hh => hne hh.symm
  induction l with
  | nil => simp [getEntry, setEntry, hkq]
  | cons hd tl ih =>
    obtain ⟨k', v'⟩ := hd
    by_cases h : k' = k
    · have hkq' : ¬ k' = q := by rw [h]; exact hkq
      simp only [setEntry, if_pos h, getEntry, if_neg hkq, if_neg hkq']
    · simp only [setEntry, if_neg h, getEntry]
      by_cases h2 : k' = q
      · simp [h2]
      · simp [h2, ih]

theorem getEntry_removeEntry_self {α β : Type} [DecidableEq α] (l : List (α × β))
    (k : α) : getEntry (removeEntry l k) k = none := by
  induction l with
  | nil => simp [getEntry, removeEntry]
  | cons hd tl ih =>
    obtain ⟨k', v'⟩ := hd
    by_cases h : k' = k
    · simp [removeEntry, h, ih]
    · simp [removeEntry, h, getEntry, ih]

/-! ### Outcome of a resolution -/

/-- `resolve_flight` writes only terminal statuses. -/
theorem resolutionOutcome_status_ne (resolution : FlightResolution) (policy : Policy) :
    (resolutionOutcome resolution policy).1 ≠ PolicyStatus.Unresolved := by
  cases resolution <;> simp [resolutionOutcome]

/-- Truncating division agrees with floor division on nonnegative numerators. -/
theorem tdiv_two_eq_fdiv_two (a : Int) (h : 0 ≤ a) : Int.tdiv a 2 = Int.fdiv a 2 := by
  obtain ⟨n, rfl⟩ := Int.eq_ofNat_of_zero_le h
  cases n with
  | zero => rfl
  | succ m => rfl

/-! ### Claim C2 — payout table -/

/-- Claim C2: in `resolve_flight`, for a policy with nonnegative coverage `C`
and premium `P`, the computed payout is `0` for `Delayed m` with `m < 60`,
`⌊C/2⌋` for `60 ≤ m ≤ 180`, `C` for `m > 180`, `P` for `Cancelled`, and `0`
for `OnTime`. -/
theorem C2_payout_table (policy : Policy) (m : Nat)
    (hcov : 0 ≤ policy.coverage_amount) :
    (m < 60 → (resolutionOutcome (.Delayed m) policy).2 = 0) ∧
    (60 ≤ m → m ≤ 180 →
      (resolutionOutcome (.Delayed m) policy).2 = Int.fdiv policy.coverage_amount 2) ∧
    (180 < m → (resolutionOutcome (.Delayed m) policy).2 = policy.coverage_amount) ∧
    (resolutionOutcome .Cancelled policy).2 = policy.premium_amount ∧
    (resolutionOutcome .OnTime policy).2 = 0 := by
  refine ⟨?_, ?_, ?_, rfl, rfl⟩
  · intro hm
    have h60 : ¬ (60 ≤ m ∧ m ≤ 180) := by omega
    have h180 : ¬ (180 < m) := by omega
    simp [resolutionOutcome, h60, h180]
  · intro h1 h2
    simp [resolutionOutcome, h1, h2, tdiv_two_eq_fdiv_two _ hcov]
  · intro hm
    have h60 : ¬ (60 ≤ m ∧ m ≤ 180) := by omega
    simp [resolutionOutcome, h60, hm]

/-- Witness for C2 at a concrete policy (coverage 5, premium 7). -/
theorem C2_payout_table_witness :
    (0 : Int) ≤ samplePolicy.coverage_amount ∧
    (resolutionOutcome (.Delayed 90) samplePolicy).2 = 2 := by
  constructor
  · decide
  · have h := (C2_payout_table samplePolicy 90 (by decide)).2.1 (by omega) (by omega)
    rw [h]
    decide

/-! ### Claim C6 — already-resolved policies are skipped -/

/-- Claim C6: within `resolve_flight`, a policy of the flight's index whose
status is not `Unresolved` is skipped: the loop iteration returns the
accumulator unchanged (no policy record, pool, active-index or transfer
change). -/
theorem C6_skip_resolved (self : Address) (resolution : FlightResolution)
    (acc : ResolveAcc) (policy_id : Nat) (policy : Policy)
    (h : getEntry acc.policies policy_id = some policy)
    (hst : policy.status ≠ PolicyStatus.Unresolved) :
    resolveStep self resolution acc policy_id = .ok acc := by
  simp [resolveStep, h, hst]

/-- Witness for C6 at a concrete accumulator holding one resolved policy. -/
theorem C6_skip_resolved_witness :
    getEntry sampleAcc.policies 1 = some sampleResolved ∧
    resolveStep 9 (.Delayed 90) sampleAcc 1 = .ok sampleAcc :=
  ⟨by decide,
   C6_skip_resolved 9 (.Delayed 90) sampleAcc 1 sampleResolved (by decide) (by decide)⟩

/-! ### Claim C9 — initialize is unvalidated -/

/-- Claim C9: a first `initialize` call performs no validation of
`initial_capital` and no asset transfer: for every `i128` value, including
zero and negative ones, it succeeds and `get_liquidity_pool` afterwards
returns exactly that value. -/
theorem C9_init_unvalidated (s : ContractState) (admin usdc_token : Address)
    (initial_capital : Int) (h : s.admin = none) :
    initializeContract s admin usdc_token initial_capital =
      .ok { s with admin := some admin, usdcToken := some usdc_token,
                   liquidityPool := some initial_capital,
                   policyCounter := some 0, activePolicies := some [] } ∧
    ∀ s', initializeContract s admin usdc_token initial_capital = .ok s' →
      get_liquidity_pool s' = initial_capital := by
  have hok : initializeContract s admin usdc_token initial_capital =
      .ok { s with admin := some admin, usdcToken := some usdc_token,
                   liquidityPool := some initial_capital,
                   policyCounter := some 0, activePolicies := some [] } := by
    simp [initializeContract, h]
  refine ⟨hok, ?_⟩
  intro s' h2
  rw [hok] at h2
  cases h2
  rfl

/-- Witness for C9: a negative initial capital of `-5` is accepted from the
empty storage, and the pool balance then reads `-5`. -/
theorem C9_init_unvalidated_witness :
    initialState.admin = none ∧
    ∀ s', initializeContract initialState 0 1 (-5) = .ok s' →
      get_liquidity_pool s' = -5 :=
  ⟨rfl, (C9_init_unvalidated initialState 0 1 (-5) rfl).2⟩

/-! ### Characterization of successful calls -/

/-- A successful `create_policy` call: the preconditions it implies and its
exact effect on storage and on the token. -/
theorem create_policy_ok (s : ContractState) (self : Address) (now : Nat)
    (auth : Address → Bool) (customer : Address) (flight_id : String)
    (flight_date : Nat) (premium_amount coverage_amount : Int)
    (pid : Nat) (s' : ContractState) (ts : List Transfer)
    (h : create_policy s self now auth customer flight_id flight_date
        premium_amount coverage_amount = .ok (pid, s', ts)) :
    auth customer = true ∧ 0 < premium_amount ∧ 0 < coverage_amount ∧
    now < flight_date ∧ coverage_amount ≤ get_liquidity_pool s ∧
    (∃ u, s.usdcToken = some u) ∧
    pid = get_total_policies s + 1 ∧
    s' = { s with
      liquidityPool := some (get_liquidity_pool s + premium_amount),
      policies := setEntry s.policies pid
        { id := pid, customer := customer, flight_id := flight_id,
          flight_date := flight_date, premium_amount := premium_amount,
          coverage_amount := coverage_amount, status := .Unresolved,
          payout_amount := 0 },
      policyCounter := some pid,
      activePolicies := some (get_active_policies s ++ [pid]),
      flightToPolicies := setEntry s.flightToPolicies flight_id
        (get_policies_for_flight s flight_id ++ [pid]) } ∧
    ts = [⟨customer, self, premium_amount⟩] := by
  by_cases hauth : auth customer = true
  case neg => simp [create_policy, hauth] at h
  by_cases hamt : premium_amount ≤ 0 ∨ coverage_amount ≤ 0
  case pos => simp [create_policy, hauth, hamt] at h
  by_cases hdate : flight_date ≤ now
  case pos => simp [create_policy, hauth, hamt, hdate] at h
  by_cases hpool : (s.liquidityPool).getD 0 < coverage_amount
  case pos => simp [create_policy, hauth, hamt, hdate, hpool] at h
  cases husdc : s.usdcToken with
  | none => simp [create_policy, hauth, hamt, hdate, hpool, husdc] at h
  | some u =>
    simp only [create_policy, hauth, hamt, hdate, hpool, husdc] at h
    simp only [hauth, not_true, if_false, Except.ok.injEq, Prod.mk.injEq] at h
    obtain ⟨hpid, hs, hts⟩ := h
    subst hpid
    subst hs
    subst hts
    refine ⟨hauth, by omega, by omega, by omega,
      by simp only [get_liquidity_pool]; omega, ⟨u, rfl⟩, ?_, ?_, rfl⟩
    · simp [get_total_policies]
    · simp [get_liquidity_pool, get_active_policies, get_policies_for_flight,
        get_total_policies]

/-! ### Claim C3 — creation postcondition -/

/-- Claim C3: every successful `create_policy` increases the stored pool
balance by exactly the premium and returns the previous policy counter
plus one, which also becomes the new counter (ids start at 1, strictly
increase, and are never reused). -/
theorem C3_create_postcondition (s : ContractState) (self : Address) (now : Nat)
    (auth : Address → Bool) (customer : Address) (flight_id : String)
    (flight_date : Nat) (premium_amount coverage_amount : Int)
    (pid : Nat) (s' : ContractState) (ts : List Transfer)
    (h : create_policy s self now auth customer flight_id flight_date
        premium_amount coverage_amount = .ok (pid, s', ts)) :
    get_liquidity_pool s' = get_liquidity_pool s + premium_amount ∧
    pid = get_total_policies s + 1 ∧
    get_total_policies s' = get_total_policies s + 1 := by
  obtain ⟨-, -, -, -, -, -, hpid, hs, -⟩ :=
    create_policy_ok s self now auth customer flight_id flight_date
      premium_amount coverage_amount pid s' ts h
  subst hs
  exact ⟨rfl, hpid, by simp [get_total_policies, hpid]⟩

/-- Witness for C3: the concrete creation of policy 1 on `sampleInit`. -/
theorem C3_create_postcondition_witness :
    get_liquidity_pool sampleCreated = get_liquidity_pool sampleInit + 7 ∧
    (1 : Nat) = get_total_policies sampleInit + 1 ∧
    get_total_policies sampleCreated = get_total_policies sampleInit + 1 :=
  C3_create_postcondition sampleInit 9 0 (fun _ => true) 2 ("F1") 10 7 50 1
    sampleCreated [⟨2, 9, 7⟩] rfl

/-! ### Claim C7 — creation error behavior -/

/-- Claim C7: `create_policy` fails with `InvalidAmount` when premium or
coverage is non-positive, with `InvalidSchedule` when the flight date is
not strictly in the future, and with `InsufficientLiquidity` when the pool
balance is below the coverage; any failing creation leaves the storage
(pool, indices, counter, records) unchanged. -/
theorem C7_create_errors (s : ContractState) (self : Address) (now : Nat)
    (auth : Address → Bool) (customer : Address) (flight_id : String)
    (flight_date : Nat) (premium_amount coverage_amount : Int)
    (hauth : auth customer = true) :
    (premium_amount ≤ 0 ∨ coverage_amount ≤ 0 →
      create_policy s self now auth customer flight_id flight_date
        premium_amount coverage_amount = .error .InvalidAmount) ∧
    (0 < premium_amount → 0 < coverage_amount → flight_date ≤ now →
      create_policy s self now auth customer flight_id flight_date
        premium_amount coverage_amount = .error .InvalidSchedule) ∧
    (0 < premium_amount → 0 < coverage_amount → now < flight_date →
      get_liquidity_pool s < coverage_amount →
      create_policy s self now auth customer flight_id flight_date
        premium_amount coverage_amount = .error .InsufficientLiquidity) ∧
    (∀ e, create_policy s self now auth customer flight_id flight_date
        premium_amount coverage_amount = .error e →
      applyOp s (.opCreate self now auth customer flight_id flight_date
        premium_amount coverage_amount) = s) := by
  refine ⟨?_, ?_, ?_, ?_⟩
  · intro hle
    simp [create_policy, hauth, hle]
  · intro hp hc hd
    have hamt : ¬ (premium_amount ≤ 0 ∨ coverage_amount ≤ 0) := by omega
    simp [create_policy, hauth, hamt, hd]
  · intro hp hc hd hpool
    have hamt : ¬ (premium_amount ≤ 0 ∨ coverage_amount ≤ 0) := by omega
    have hd' : ¬ flight_date ≤ now := by omega
    simp only [get_liquidity_pool] at hpool
    simp [create_policy, hauth, hamt, hd', hpool]
  · intro e he
    simp [applyOp, he]

/-- Witness for C7: a creation whose flight date (3) is not after the
current time (5) fails with `InvalidSchedule`. -/
theorem C7_create_errors_witness :
    ((fun _ : Address => true) 2 = true) ∧
    create_policy sampleInit 9 5 (fun _ => true) 2 ("F1") 3 7 50 =
      .error .InvalidSchedule :=
  ⟨rfl, (C7_create_errors sampleInit 9 5 (fun _ => true) 2 ("F1") 3 7 50 rfl).2.1
    (by decide) (by decide) (by decide)⟩

/-! ### Claim C10 — deposits are administrator-only -/

/-- Claim C10: `deposit_to_pool` requires authorization from the stored
admin; when the admin has not authorized, it fails with `Unauthorized`,
and every successful call was authorized by the admin, transfers the
amount from the admin's own account to the contract, and increases the
stored pool balance by exactly the amount. -/
theorem C10_deposit_admin_only (s : ContractState) (self : Address)
    (auth : Address → Bool) (amount : Int) (admin : Address)
    (hadmin : s.admin = some admin) :
    (auth admin = false →
      deposit_to_pool s self auth amount = .error .Unauthorized) ∧
    ∀ s' ts, deposit_to_pool s self auth amount = .ok (s', ts) →
      auth admin = true ∧ ts = [⟨admin, self, amount⟩] ∧
      get_liquidity_pool s' = get_liquidity_pool s + amount := by
  constructor
  · intro hfalse
    simp [deposit_to_pool, hadmin, hfalse]
  · intro s' ts h
    by_cases hauth : auth admin = true
    case neg => simp [deposit_to_pool, hadmin, hauth] at h
    by_cases hamt : amount ≤ 0
    case pos => simp [deposit_to_pool, hadmin, hauth, hamt] at h
    cases husdc : s.usdcToken with
    | none => simp [deposit_to_pool, hadmin, hauth, hamt, husdc] at h
    | some u =>
      simp only [deposit_to_pool, hadmin, hauth, not_true, if_false, hamt,
        husdc, if_neg, Except.ok.injEq, Prod.mk.injEq] at h
      obtain ⟨hs, hts⟩ := h
      subst hs
      subst hts
      exact ⟨hauth, rfl, by simp [get_liquidity_pool]⟩

/-- Witness for C10: the admin `0` deposits 5 into `sampleInit`. -/
theorem C10_deposit_admin_only_witness :
    sampleInit.admin = some 0 ∧
    ((fun _ : Address => true) 0 = true ∧
      ([⟨0, 9, 5⟩] : List Transfer) = [⟨0, 9, 5⟩] ∧
      get_liquidity_pool (applyOp sampleInit (.opDeposit 9 (fun _ => true) 5)) =
        get_liquidity_pool sampleInit + 5) :=
  ⟨rfl,
   (C10_deposit_admin_only sampleInit 9 (fun _ => true) 5 0 rfl).2
     (applyOp sampleInit (.opDeposit 9 (fun _ => true) 5)) [⟨0, 9, 5⟩] rfl⟩

/-! ### Claim C4 — withdrawal guard -/

/-- Counterexample to C4 as stated: the claim quantifies over every amount,
but for `amount = 0` on an initialized state with no active policies the
exposure check would pass (`100 - 0 ≥ 0`) and yet `withdraw_from_pool` is
rejected (`InvalidAmount`), so "otherwise it succeeds" is false. -/
theorem C4_withdraw_guard_cex :
    ¬ (get_liquidity_pool sampleInit - 0 <
        activeExposure sampleInit.policies (get_active_policies sampleInit)) ∧
    withdraw_from_pool sampleInit 9 (fun _ => true) 0 = .error .InvalidAmount :=
  ⟨by decide, rfl⟩

/-- Claim C4 (amended): for an initialized, admin-authorized call with a
positive amount, `withdraw_from_pool` is rejected with
`InsufficientCoverage` exactly when the pool balance minus the amount is
below the summed coverage of the policies in the active index; otherwise
it succeeds, transfers the amount to the admin, and only lowers the stored
pool balance by exactly the amount. -/
theorem C4_withdraw_guard (s : ContractState) (self : Address)
    (auth : Address → Bool) (amount : Int) (admin usdc_token : Address)
    (hadmin : s.admin = some admin) (hauth : auth admin = true)
    (hpos : 0 < amount) (husdc : s.usdcToken = some usdc_token) :
    (get_liquidity_pool s - amount <
        activeExposure s.policies (get_active_policies s) →
      withdraw_from_pool s self auth amount = .error .InsufficientCoverage) ∧
    (activeExposure s.policies (get_active_policies s) ≤
        get_liquidity_pool s - amount →
      withdraw_from_pool s self auth amount =
        .ok ({ s with liquidityPool := some (get_liquidity_pool s - amount) },
             [⟨self, admin, amount⟩])) := by
  have hamt : ¬ amount ≤ 0 := by omega
  constructor
  · intro hlt
    simp only [get_liquidity_pool, get_active_policies] at hlt
    simp [withdraw_from_pool, hadmin, hauth, hamt, hlt]
  · intro hge
    have hnlt : ¬ ((s.liquidityPool).getD 0 - amount <
        activeExposure s.policies ((s.activePolicies).getD [])) := by
      simp only [get_liquidity_pool, get_active_policies] at hge
      omega
    simp [withdraw_from_pool, hadmin, hauth, hamt, hnlt, husdc, get_liquidity_pool]

/-- Witness for C4 (amended): withdrawing 30 from `sampleCreated`
(pool 107, one active policy with coverage 50) succeeds: `107 - 30 ≥ 50`. -/
theorem C4_withdraw_guard_witness :
    sampleCreated.admin = some 0 ∧
    withdraw_from_pool sampleCreated 9 (fun _ => true) 30 =
      .ok ({ sampleCreated with
              liquidityPool := some (get_liquidity_pool sampleCreated - 30) },
           [⟨9, 0, 30⟩]) := by
  refine ⟨rfl, ?_⟩
  exact (C4_withdraw_guard sampleCreated 9 (fun _ => true) 30 0 1 rfl rfl
    (by decide) rfl).2 (by decide)

/-- A successful `withdraw_from_pool` call: the preconditions it implies
and its exact effect. -/
theorem withdraw_from_pool_ok (s : ContractState) (self : Address)
    (auth : Address → Bool) (amount : Int) (s' : ContractState)
    (ts : List Transfer)
    (h : withdraw_from_pool s self auth amount = .ok (s', ts)) :
    ∃ admin usdc_token, s.admin = some admin ∧ auth admin = true ∧
      0 < amount ∧ s.usdcToken = some usdc_token ∧
      activeExposure s.policies (get_active_policies s) ≤
        get_liquidity_pool s - amount ∧
      s' = { s with liquidityPool := some (get_liquidity_pool s - amount) } ∧
      ts = [⟨self, admin, amount⟩] := by
  cases hadmin : s.admin with
  | none => simp [withdraw_from_pool, hadmin] at h
  | some admin =>
    by_cases hauth : auth admin = true
    case neg => simp [withdraw_from_pool, hadmin, hauth] at h
    by_cases hamt : amount ≤ 0
    case pos => simp [withdraw_from_pool, hadmin, hauth, hamt] at h
    by_cases hexp : (s.liquidityPool).getD 0 - amount <
        activeExposure s.policies ((s.activePolicies).getD [])
    case pos => simp [withdraw_from_pool, hadmin, hauth, hamt, hexp] at h
    cases husdc : s.usdcToken with
    | none => simp [withdraw_from_pool, hadmin, hauth, hamt, hexp, husdc] at h
    | some u =>
      simp only [withdraw_from_pool, hadmin, hauth, not_true, if_false, hamt,
        hexp, husdc, Except.ok.injEq, Prod.mk.injEq] at h
      obtain ⟨hs, hts⟩ := h
      subst hs
      subst hts
      refine ⟨admin, u, rfl, hauth, by omega, rfl, ?_, rfl, rfl⟩
      simp only [get_liquidity_pool, get_active_policies]
      omega

/-- A successful `deposit_to_pool` call: the preconditions it implies and
its exact effect. -/
theorem deposit_to_pool_ok (s : ContractState) (self : Address)
    (auth : Address → Bool) (amount : Int) (s' : ContractState)
    (ts : List Transfer)
    (h : deposit_to_pool s self auth amount = .ok (s', ts)) :
    ∃ admin usdc_token, s.admin = some admin ∧ auth admin = true ∧
      0 < amount ∧ s.usdcToken = some usdc_token ∧
      s' = { s with liquidityPool := some (get_liquidity_pool s + amount) } ∧
      ts = [⟨admin, self, amount⟩] := by
  cases hadmin : s.admin with
  | none => simp [deposit_to_pool, hadmin] at h
  | some admin =>
    by_cases hauth : auth admin = true
    case neg => simp [deposit_to_pool, hadmin, hauth] at h
    by_cases hamt : amount ≤ 0
    case pos => simp [deposit_to_pool, hadmin, hauth, hamt] at h
    cases husdc : s.usdcToken with
    | none => simp [deposit_to_pool, hadmin, hauth, hamt, husdc] at h
    | some u =>
      simp only [deposit_to_pool, hadmin, hauth, not_true, if_false, hamt,
        husdc, Except.ok.injEq, Prod.mk.injEq] at h
      obtain ⟨hs, hts⟩ := h
      subst hs
      subst hts
      exact ⟨admin, u, rfl, hauth, by omega, rfl, by simp [get_liquidity_pool], rfl⟩

/-- A successful `initializeContract` call: it requires an unset admin and
sets the five instance slots. -/
theorem initializeContract_ok (s : ContractState) (admin usdc_token : Address)
    (initial_capital : Int) (s' : ContractState)
    (h : initializeContract s admin usdc_token initial_capital = .ok s') :
    s.admin = none ∧
    s' = { s with admin := some admin, usdcToken := some usdc_token,
                  liquidityPool := some initial_capital,
                  policyCounter := some 0, activePolicies := some [] } := by
  cases hadmin : s.admin with
  | some a => simp [initializeContract, hadmin] at h
  | none =>
    simp only [initializeContract, hadmin, Option.isSome_none, Bool.false_eq_true,
      if_false, Except.ok.injEq] at h
    exact ⟨rfl, h.symm⟩

/-- A successful `resolve_flight` call: the preconditions it implies and
its exact effect in terms of the loop. -/
theorem resolve_flight_ok (s : ContractState) (self : Address)
    (auth : Address → Bool) (flight_id : String)
    (resolution : FlightResolution) (out : ContractState × List Transfer)
    (h : resolve_flight s self auth flight_id resolution = .ok out) :
    ∃ admin policy_ids usdc_token acc,
      s.admin = some admin ∧ auth admin = true ∧
      getEntry s.flightToPolicies flight_id = some policy_ids ∧
      s.usdcToken = some usdc_token ∧
      resolveLoop self resolution
        { policies := s.policies, pool := (s.liquidityPool).getD 0,
          active := s.activePolicies, transfers := [] } policy_ids = .ok acc ∧
      out = ({ s with policies := acc.policies,
                      liquidityPool := some acc.pool,
                      activePolicies := acc.active,
                      flightToPolicies := removeEntry s.flightToPolicies flight_id },
             acc.transfers) := by
  cases hadmin : s.admin with
  | none => simp [resolve_flight, hadmin] at h
  | some admin =>
    by_cases hauth : auth admin = true
    case neg => simp [resolve_flight, hadmin, hauth] at h
    cases hfp : getEntry s.flightToPolicies flight_id with
    | none => simp [resolve_flight, hadmin, hauth, hfp] at h
    | some policy_ids =>
      cases husdc : s.usdcToken with
      | none => simp [resolve_flight, hadmin, hauth, hfp, husdc] at h
      | some u =>
        simp only [resolve_flight, hadmin, hauth, not_true, if_false, hfp,
          husdc] at h
        cases hloop : resolveLoop self resolution
            { policies := s.policies, pool := (s.liquidityPool).getD 0,
              active := s.activePolicies, transfers := [] } policy_ids with
        | error e => rw [hloop] at h; cases h
        | ok acc =>
          rw [hloop] at h
          simp only [Except.ok.injEq] at h
          exact ⟨admin, policy_ids, u, acc, rfl, hauth, rfl, rfl, hloop, h.symm⟩

/-! ### Claim C1 — solvency invariant -/

/-- Counterexample to C1 as stated: `overCommitted` is reachable by
`initialize(0, 1, 100)` then two policy creations (coverage 50 then 107,
premium 7 each), yet its stored pool balance (114) is strictly below the
summed coverage of its unresolved policies (157).  The creation-time check
compares coverage with the gross pool balance, not with the pool minus the
existing exposure. -/
theorem C1_solvency_cex :
    Reachable overCommitted ∧
    get_liquidity_pool overCommitted < unresolvedExposure overCommitted :=
  ⟨Reachable.step sampleCreated (.opCreate 9 0 (fun _ => true) 3 ("F2") 10 7 107)
    (Reachable.step sampleInit (.opCreate 9 0 (fun _ => true) 2 ("F1") 10 7 50)
      (Reachable.step initialState (.opInit 0 1 100) Reachable.init)),
   by decide⟩

/-- Claim C1 (amended): the solvency checks the code actually enforces.
Every successful `create_policy` requires the prior pool balance to cover
the new policy's coverage on its own, and every successful
`withdraw_from_pool` leaves the pool balance at or above the summed
coverage of the policies in the active index.  The global invariant
`pool ≥ Σ coverage of unresolved policies` does not hold for arbitrary
operation sequences (see the counterexample). -/
theorem C1_solvency_checks (s : ContractState) (self : Address) (now : Nat)
    (auth : Address → Bool) (customer : Address) (flight_id : String)
    (flight_date : Nat) (premium_amount coverage_amount amount : Int) :
    (∀ pid s' ts, create_policy s self now auth customer flight_id
        flight_date premium_amount coverage_amount = .ok (pid, s', ts) →
      coverage_amount ≤ get_liquidity_pool s) ∧
    (∀ s' ts, withdraw_from_pool s self auth amount = .ok (s', ts) →
      activeExposure s'.policies (get_active_policies s') ≤
        get_liquidity_pool s') := by
  constructor
  · intro pid s' ts h
    exact (create_policy_ok s self now auth customer flight_id flight_date
      premium_amount coverage_amount pid s' ts h).2.2.2.2.1
  · intro s' ts h
    obtain ⟨admin, u, -, -, -, -, hexp, hs, -⟩ :=
      withdraw_from_pool_ok s self auth amount s' ts h
    subst hs
    simpa [get_liquidity_pool, get_active_policies] using hexp

/-- Witness for C1 (amended) at the concrete creation leading to
`sampleCreated` and the concrete withdrawal leading to `afterWithdraw`. -/
theorem C1_solvency_checks_witness :
    (50 : Int) ≤ get_liquidity_pool sampleInit ∧
    activeExposure afterWithdraw.policies (get_active_policies afterWithdraw) ≤
      get_liquidity_pool afterWithdraw :=
  ⟨(C1_solvency_checks sampleInit 9 0 (fun _ => true) 2 ("F1") 10 7 50 30).1
      1 sampleCreated [⟨2, 9, 7⟩] rfl,
   (C1_solvency_checks sampleCreated 9 0 (fun _ => true) 2 ("F1") 10 7 50 30).2
      afterWithdraw [⟨9, 0, 30⟩] rfl⟩

/-! ### Claim C5 — a flight resolves at most once -/

/-- Counterexample to C5 as stated: after `"F1"` is resolved on
`sampleCreated`, a second `resolve_flight` for the same flight does not
complete as a no-op — it panics with "No policies found for this flight"
(the deleted index entry makes the `expect` fail), aborting the call. -/
theorem C5_resolve_once_cex :
    resolve_flight sampleCreated 9 (fun _ => true) "F1" .OnTime =
      .ok (afterResolve, []) ∧
    resolve_flight afterResolve 9 (fun _ => true) "F1" .OnTime =
      .error .NoPoliciesForFlight :=
  ⟨rfl, rfl⟩

/-- Claim C5 (amended): after a successful `resolve_flight`, the flight's
index entry is deleted, and any second `resolve_flight` for the same
flight (authorized by the admin) fails with the no-policies panic —
aborting with the state unchanged — rather than completing as a no-op. -/
theorem C5_resolve_once (s : ContractState) (self : Address)
    (auth : Address → Bool) (flight_id : String)
    (resolution : FlightResolution) (out : ContractState × List Transfer)
    (admin : Address) (hadmin : s.admin = some admin)
    (h : resolve_flight s self auth flight_id resolution = .ok out) :
    getEntry out.1.flightToPolicies flight_id = none ∧
    get_policies_for_flight out.1 flight_id = [] ∧
    ∀ self2 auth2 res2, auth2 admin = true →
      resolve_flight out.1 self2 auth2 flight_id res2 =
        .error .NoPoliciesForFlight := by
  obtain ⟨admin2, policy_ids, u, acc, hadmin2, -, -, -, -, hout⟩ :=
    resolve_flight_ok s self auth flight_id resolution out h
  have hA : admin2 = admin := by
    rw [hadmin] at hadmin2
    cases hadmin2
    rfl
  subst hA
  subst hout
  have hnone : getEntry (removeEntry s.flightToPolicies flight_id) flight_id = none :=
    getEntry_removeEntry_self s.flightToPolicies flight_id
  refine ⟨hnone, by simp [get_policies_for_flight, hnone], ?_⟩
  intro self2 auth2 res2 hauth2
  simp [resolve_flight, hadmin2, hauth2, hnone]

/-- Witness for C5 (amended) at the concrete resolution of `"F1"` on
`sampleCreated`. -/
theorem C5_resolve_once_witness :
    getEntry afterResolve.flightToPolicies ("F1") = none ∧
    resolve_flight afterResolve 8 (fun _ => true) "F1" FlightResolution.Cancelled =
      .error .NoPoliciesForFlight :=
  have h := C5_resolve_once sampleCreated 9 (fun _ => true) "F1" .OnTime
    (afterResolve, []) 0 rfl rfl
  ⟨h.1, h.2.2 8 (fun _ => true) FlightResolution.Cancelled rfl⟩

/-! ### Effect of the resolution loop on policy records -/

/-- One loop iteration either leaves a record's lookup unchanged, or (for
the processed id) turns an unresolved record into a resolved one. -/
theorem resolveStep_lookup (self : Address) (resolution : FlightResolution)
    (acc : ResolveAcc) (policy_id : Nat) (acc' : ResolveAcc)
    (h : resolveStep self resolution acc policy_id = .ok acc') (q : Nat) :
    getEntry acc'.policies q = getEntry acc.policies q ∨
    (q = policy_id ∧ ∃ p r, getEntry acc.policies q = some p ∧
      getEntry acc'.policies q = some r ∧
      p.status = PolicyStatus.Unresolved ∧
      r.status ≠ PolicyStatus.Unresolved) := by
  cases hp : getEntry acc.policies policy_id with
  | none => simp [resolveStep, hp] at h
  | some policy =>
    by_cases hst : policy.status = PolicyStatus.Unresolved
    case neg =>
      simp only [resolveStep, hp, ne_eq, hst, not_false_eq_true, if_true,
        Except.ok.injEq] at h
      subst h
      exact Or.inl rfl
    case pos =>
      by_cases hpay : 0 < (resolutionOutcome resolution policy).2
      · by_cases hpool : acc.pool < (resolutionOutcome resolution policy).2
        · simp [resolveStep, hp, hst, hpay, hpool] at h
        · simp only [resolveStep, hp, ne_eq, hst, not_true_eq_false,
            if_false, hpay, if_true, hpool, Except.ok.injEq] at h
          subst h
          by_cases hq : q = policy_id
          · subst hq
            exact Or.inr ⟨rfl, policy, _, hp, getEntry_setEntry_self _ _ _,
              hst, resolutionOutcome_status_ne resolution policy⟩
          · exact Or.inl (getEntry_setEntry_ne _ _ _ _ hq)
      · simp only [resolveStep, hp, ne_eq, hst, not_true_eq_false, if_false,
          hpay, Except.ok.injEq] at h
        subst h
        by_cases hq : q = policy_id
        · subst hq
          exact Or.inr ⟨rfl, policy, _, hp, getEntry_setEntry_self _ _ _,
            hst, resolutionOutcome_status_ne resolution policy⟩
        · exact Or.inl (getEntry_setEntry_ne _ _ _ _ hq)

/-- The whole loop either leaves a record's lookup unchanged, or turns an
unresolved record into a resolved one. -/
theorem resolveLoop_lookup (self : Address) (resolution : FlightResolution)
    (l : List Nat) : ∀ acc acc' : ResolveAcc,
    resolveLoop self resolution acc l = .ok acc' → ∀ q : Nat,
    getEntry acc'.policies q = getEntry acc.policies q ∨
    ∃ p r, getEntry acc.policies q = some p ∧
      getEntry acc'.policies q = some r ∧
      p.status = PolicyStatus.Unresolved ∧
      r.status ≠ PolicyStatus.Unresolved := by
  induction l with
  | nil =>
    intro acc acc' h q
    simp only [resolveLoop, Except.ok.injEq] at h
    subst h
    exact Or.inl rfl
  | cons pid rest ih =>
    intro acc acc' h q
    simp only [resolveLoop] at h
    cases hstep : resolveStep self resolution acc pid with
    | error e => rw [hstep] at h; cases h
    | ok acc1 =>
      rw [hstep] at h
      rcases ih acc1 acc' h q with h1 | ⟨p1, r, hp1, hr, hp1u, hrn⟩
      · rcases resolveStep_lookup self resolution acc pid acc1 hstep q with
          h2 | ⟨-, p, r, hp, hr, hpu, hrn⟩
        · exact Or.inl (h1.trans h2)
        · exact Or.inr ⟨p, r, hp, h1.trans hr, hpu, hrn⟩
      · rcases resolveStep_lookup self resolution acc pid acc1 hstep q with
          h2 | ⟨-, p, r2, hp, hr2, hpu, hr2n⟩
        · rw [h2] at hp1
          exact Or.inr ⟨p1, r, hp1, hr, hp1u, hrn⟩
        · rw [hr2] at hp1
          injection hp1 with heq
          exact absurd hp1u (heq ▸ hr2n)

/-! ### The storage invariant is inductive -/

/-- Every public invocation preserves `StateInv`. -/
theorem applyOp_inv (s : ContractState) (op : Op) (hInv : StateInv s) :
    StateInv (applyOp s op) := by
  obtain ⟨hInv0, hInv1, hInv2⟩ := hInv
  cases op with
  | opInit a u c =>
    simp only [applyOp]
    cases hres : initializeContract s a u c with
    | error e => exact ⟨hInv0, hInv1, hInv2⟩
    | ok s1 =>
      obtain ⟨hnone, hs1⟩ := initializeContract_ok s a u c s1 hres
      have hpol : s.policies = [] := hInv1 hnone
      refine ⟨fun _ => ?_, fun hcontra => ?_, fun pid p hp => ?_⟩
      · subst hs1
        rfl
      · exfalso
        subst hs1
        simp at hcontra
      · exfalso
        subst hs1
        have hp' : getEntry s.policies pid = some p := hp
        rw [hpol] at hp'
        simp [getEntry] at hp'
  | opCreate self now auth customer fid fdate prem cov =>
    simp only [applyOp]
    cases hres : create_policy s self now auth customer fid fdate prem cov with
    | error e => exact ⟨hInv0, hInv1, hInv2⟩
    | ok r =>
      obtain ⟨pid, s1, ts⟩ := r
      obtain ⟨-, -, -, -, -, ⟨u, husdc⟩, hpid, hs1, -⟩ :=
        create_policy_ok s self now auth customer fid fdate prem cov pid s1 ts hres
      subst hs1
      refine ⟨fun h0 => hInv0 h0, ?_, ?_⟩
      · intro hadm
        have hadm' : s.admin = none := hadm
        have := hInv0 (by rw [husdc]; rfl)
        rw [hadm'] at this
        simp at this
      · intro q p hq
        dsimp only at hq ⊢
        by_cases hqpid : q = pid
        · subst hqpid
          rw [getEntry_setEntry_self] at hq
          injection hq with hpeq
          subst hpeq
          refine ⟨by omega, ?_, fun _ => rfl⟩
          show q ≤ q
          exact Nat.le_refl q
        · rw [getEntry_setEntry_ne _ _ _ _ hqpid] at hq
          obtain ⟨h1, h2, h3⟩ := hInv2 q p hq
          refine ⟨h1, ?_, h3⟩
          show q ≤ pid
          omega
  | opResolve self auth fid res =>
    simp only [applyOp]
    cases hres : resolve_flight s self auth fid res with
    | error e => exact ⟨hInv0, hInv1, hInv2⟩
    | ok out =>
      obtain ⟨admin, pids, u, acc, hadmin, -, -, -, hloop, hout⟩ :=
        resolve_flight_ok s self auth fid res out hres
      rw [hout]
      refine ⟨fun h0 => hInv0 h0, ?_, ?_⟩
      · intro hadm
        have hadm' : s.admin = none := hadm
        rw [hadmin] at hadm'
        cases hadm'
      · intro q p hq
        have hq' : getEntry acc.policies q = some p := hq
        rcases resolveLoop_lookup self res pids _ acc hloop q with
          h1 | ⟨p0, r, hp0, hr, hp0u, hrn⟩
        · rw [hq'] at h1
          have hsq : getEntry s.policies q = some p := h1.symm
          obtain ⟨h1, h2, h3⟩ := hInv2 q p hsq
          exact ⟨h1, h2, h3⟩
        · have hp0' : getEntry s.policies q = some p0 := hp0
          rw [hq'] at hr
          injection hr with hrp
          obtain ⟨h1, h2, -⟩ := hInv2 q p0 hp0'
          refine ⟨h1, h2, fun hu => absurd hu (hrp ▸ hrn)⟩
  | opDeposit self auth amount =>
    simp only [applyOp]
    cases hres : deposit_to_pool s self auth amount with
    | error e => exact ⟨hInv0, hInv1, hInv2⟩
    | ok r =>
      obtain ⟨out, ts⟩ := r
      obtain ⟨admin, u, hadmin, -, -, -, hout, -⟩ :=
        deposit_to_pool_ok s self auth amount out ts hres
      subst hout
      refine ⟨fun h0 => hInv0 h0, ?_, fun q p hq => hInv2 q p hq⟩
      intro hadm
      have hadm' : s.admin = none := hadm
      rw [hadmin] at hadm'
      cases hadm'
  | opWithdraw self auth amount =>
    simp only [applyOp]
    cases hres : withdraw_from_pool s self auth amount with
    | error e => exact ⟨hInv0, hInv1, hInv2⟩
    | ok r =>
      obtain ⟨out, ts⟩ := r
      obtain ⟨admin, u, hadmin, -, -, -, -, hout, -⟩ :=
        withdraw_from_pool_ok s self auth amount out ts hres
      subst hout
      refine ⟨fun h0 => hInv0 h0, ?_, fun q p hq => hInv2 q p hq⟩
      intro hadm
      have hadm' : s.admin = none := hadm
      rw [hadmin] at hadm'
      cases hadm'

/-- Every reachable storage satisfies `StateInv`. -/
theorem reachable_inv (s : ContractState) (h : Reachable s) : StateInv s := by
  induction h with
  | init =>
    refine ⟨fun h0 => by simp [initialState] at h0, fun _ => rfl, ?_⟩
    intro pid p hp
    simp [initialState, getEntry] at hp
  | step s' op hs ih => exact applyOp_inv s' op ih

/-! ### Frame property for resolved policies -/

/-- No public invocation modifies the stored record of a policy whose
status is no longer `Unresolved`. -/
theorem applyOp_resolved_frame (s : ContractState) (op : Op) (q : Nat)
    (p : Policy) (hInv : StateInv s) (h : getEntry s.policies q = some p)
    (hst : p.status ≠ PolicyStatus.Unresolved) :
    getEntry (applyOp s op).policies q = some p := by
  obtain ⟨hInv0, hInv1, hInv2⟩ := hInv
  cases op with
  | opInit a u c =>
    simp only [applyOp]
    cases hres : initializeContract s a u c with
    | error e => exact h
    | ok s1 =>
      obtain ⟨hnone, hs1⟩ := initializeContract_ok s a u c s1 hres
      have hpol : s.policies = [] := hInv1 hnone
      rw [hpol] at h
      simp [getEntry] at h
  | opCreate self now auth customer fid fdate prem cov =>
    simp only [applyOp]
    cases hres : create_policy s self now auth customer fid fdate prem cov with
    | error e => exact h
    | ok r =>
      obtain ⟨pid, s1, ts⟩ := r
      obtain ⟨-, -, -, -, -, -, hpid, hs1, -⟩ :=
        create_policy_ok s self now auth customer fid fdate prem cov pid s1 ts hres
      subst hs1
      have hqle := (hInv2 q p h).2.1
      have hqne : q ≠ pid := by omega
      dsimp only
      rw [getEntry_setEntry_ne _ _ _ _ hqne]
      exact h
  | opResolve self auth fid res =>
    simp only [applyOp]
    cases hres : resolve_flight s self auth fid res with
    | error e => exact h
    | ok out =>
      obtain ⟨admin, pids, u, acc, hadmin, -, -, -, hloop, hout⟩ :=
        resolve_flight_ok s self auth fid res out hres
      rw [hout]
      show getEntry acc.policies q = some p
      rcases resolveLoop_lookup self res pids _ acc hloop q with
        h1 | ⟨p0, r, hp0, hr, hp0u, hrn⟩
      · rw [h1]; exact h
      · have hp0' : getEntry s.policies q = some p0 := hp0
        rw [h] at hp0'
        injection hp0' with he
        exact absurd hp0u (he ▸ hst)
  | opDeposit self auth amount =>
    simp only [applyOp]
    cases hres : deposit_to_pool s self auth amount with
    | error e => exact h
    | ok r =>
      obtain ⟨out, ts⟩ := r
      obtain ⟨admin, u, hadmin, -, -, -, hout, -⟩ :=
        deposit_to_pool_ok s self auth amount out ts hres
      subst hout
      exact h
  | opWithdraw self auth amount =>
    simp only [applyOp]
    cases hres : withdraw_from_pool s self auth amount with
    | error e => exact h
    | ok r =>
      obtain ⟨out, ts⟩ := r
      obtain ⟨admin, u, hadmin, -, -, -, -, hout, -⟩ :=
        withdraw_from_pool_ok s self auth amount out ts hres
      subst hout
      exact h

/-- If an invocation changes a stored policy record at all, the old record
was `Unresolved` and the new one is not. -/
theorem applyOp_change (s : ContractState) (op : Op) (q : Nat)
    (p p2 : Policy) (hInv : StateInv s) (h : getEntry s.policies q = some p)
    (h2 : getEntry (applyOp s op).policies q = some p2) (hne : p2 ≠ p) :
    p.status = PolicyStatus.Unresolved ∧
    p2.status ≠ PolicyStatus.Unresolved := by
  by_cases hst : p.status = PolicyStatus.Unresolved
  case neg =>
    exfalso
    have hf := applyOp_resolved_frame s op q p hInv h hst
    rw [hf] at h2
    injection h2 with he
    exact hne he.symm
  case pos =>
    refine ⟨hst, ?_⟩
    obtain ⟨hInv0, hInv1, hInv2⟩ := hInv
    cases op with
    | opInit a u c =>
      simp only [applyOp] at h2
      cases hres : initializeContract s a u c with
      | error e =>
        rw [hres] at h2
        rw [h] at h2
        injection h2 with he
        exact absurd he.symm hne
      | ok s1 =>
        obtain ⟨hnone, hs1⟩ := initializeContract_ok s a u c s1 hres
        have hpol : s.policies = [] := hInv1 hnone
        rw [hpol] at h
        simp [getEntry] at h
    | opCreate self now auth customer fid fdate prem cov =>
      simp only [applyOp] at h2
      cases hres : create_policy s self now auth customer fid fdate prem cov with
      | error e =>
        rw [hres] at h2
        rw [h] at h2
        injection h2 with he
        exact absurd he.symm hne
      | ok r =>
        obtain ⟨pid, s1, ts⟩ := r
        obtain ⟨-, -, -, -, -, -, hpid, hs1, -⟩ :=
          create_policy_ok s self now auth customer fid fdate prem cov pid s1 ts hres
        rw [hres] at h2
        subst hs1
        have hqle := (hInv2 q p h).2.1
        have hqne : q ≠ pid := by omega
        dsimp only at h2
        rw [getEntry_setEntry_ne _ _ _ _ hqne] at h2
        rw [h] at h2
        injection h2 with he
        exact absurd he.symm hne
    | opResolve self auth fid res =>
      simp only [applyOp] at h2
      cases hres : resolve_flight s self auth fid res with
      | error e =>
        rw [hres] at h2
        rw [h] at h2
        injection h2 with he
        exact absurd he.symm hne
      | ok out =>
        obtain ⟨admin, pids, u, acc, hadmin, -, -, -, hloop, hout⟩ :=
          resolve_flight_ok s self auth fid res out hres
        rw [hres] at h2
        rw [hout] at h2
        have h2' : getEntry acc.policies q = some p2 := h2
        rcases resolveLoop_lookup self res pids _ acc hloop q with
          h1 | ⟨p0, r, hp0, hr, hp0u, hrn⟩
        · rw [h2'] at h1
          have hsp : getEntry s.policies q = some p2 := h1.symm
          rw [h] at hsp
          injection hsp with he
          exact absurd he.symm hne
        · rw [h2'] at hr
          injection hr with he
          exact he ▸ hrn
    | opDeposit self auth amount =>
      simp only [applyOp] at h2
      cases hres : deposit_to_pool s self auth amount with
      | error e =>
        rw [hres] at h2
        rw [h] at h2
        injection h2 with he
        exact absurd he.symm hne
      | ok r =>
        obtain ⟨out, ts⟩ := r
        obtain ⟨admin, u, hadmin, -, -, -, hout, -⟩ :=
          deposit_to_pool_ok s self auth amount out ts hres
        rw [hres] at h2
        subst hout
        have h2' : getEntry s.policies q = some p2 := h2
        rw [h] at h2'
        injection h2' with he
        exact absurd he.symm hne
    | opWithdraw self auth amount =>
      simp only [applyOp] at h2
      cases hres : withdraw_from_pool s self auth amount with
      | error e =>
        rw [hres] at h2
        rw [h] at h2
        injection h2 with he
        exact absurd he.symm hne
      | ok r =>
        obtain ⟨out, ts⟩ := r
        obtain ⟨admin, u, hadmin, -, -, -, -, hout, -⟩ :=
          withdraw_from_pool_ok s self auth amount out ts hres
        rw [hres] at h2
        subst hout
        have h2' : getEntry s.policies q = some p2 := h2
        rw [h] at h2'
        injection h2' with he
        exact absurd he.symm hne

/-! ### Claim C8 — payout is written at most once -/

/-- Claim C8: in every reachable storage, a policy whose status is
`Unresolved` has `payout_amount = 0`; no public operation modifies the
stored record of a policy whose status has left `Unresolved`; and any
operation changing a stored `payout_amount` does so exactly at the step
where that policy's status transitions away from `Unresolved`. -/
theorem C8_payout_write_once (s : ContractState) (hs : Reachable s) :
    (∀ pid p, getEntry s.policies pid = some p →
      p.status = PolicyStatus.Unresolved → p.payout_amount = 0) ∧
    (∀ op pid p, getEntry s.policies pid = some p →
      p.status ≠ PolicyStatus.Unresolved →
      getEntry (applyOp s op).policies pid = some p) ∧
    (∀ op pid p p2, getEntry s.policies pid = some p →
      getEntry (applyOp s op).policies pid = some p2 →
      p2.payout_amount ≠ p.payout_amount →
      p.status = PolicyStatus.Unresolved ∧
      p2.status ≠ PolicyStatus.Unresolved) := by
  have hInv := reachable_inv s hs
  refine ⟨fun pid p h hu => ((hInv.2.2) pid p h).2.2 hu,
    fun op pid p h hst => applyOp_resolved_frame s op pid p hInv h hst,
    fun op pid p p2 h h2 hpay =>
      applyOp_change s op pid p p2 hInv h h2 (fun he => hpay (by rw [he]))⟩

/-- Witness for C8 at the reachable storage `sampleCreated`, whose stored
policy 1 is unresolved and indeed carries payout 0. -/
theorem C8_payout_write_once_witness :
    sampleCreatedPolicy.payout_amount = 0 :=
  (C8_payout_write_once sampleCreated
      (Reachable.step sampleInit (.opCreate 9 0 (fun _ => true) 2 ("F1") 10 7 50)
        (Reachable.step initialState (.opInit 0 1 100) Reachable.init))).1
    1 sampleCreatedPolicy (by decide) rfl

end FlightInsurance
